import Mathlib

/-!
Shallow embedding of the `axum-response-cache` crate (src/lib.rs): a tower
layer that caches HTTP responses by request method and URI, with optional
stale-on-failure fallback and a body-size limit on materialization.

The embedding models:
  * the cache key `(Method, Uri)` (src/lib.rs line 195);
  * `CachedResponse` and its `into_response` (lines 198-208);
  * the store contract consumed from the `cached` crate
    (`cache_get_expired`, `cache_set`, `cache_remove`), modelled from the
    spec's store contract as an association list carrying an expired flag;
  * `update_cache` (lines 343-363), with `axum::body::to_bytes` modelled
    as a size check on a fully known body;
  * `CacheService::call` (lines 293-341), as a pure function from the
    store state, the request, and the response the inner service's future
    would produce, to the returned response, the new store state, and a
    trace of events in source order (the event trace records the order in
    which the inner future is constructed, the store is consulted and
    mutated, and the inner future is awaited).
-/

namespace AxumResponseCache

/-- HTTP method token, e.g. "GET". -/
abbrev Method := String

/-- Request URI: the full path-plus-query identity. -/
abbrev Uri := String

/-- The caching key for the responses: HTTP method and URI of the request
(src/lib.rs line 195: `type Key = (axum::http::Method, axum::http::Uri)`). -/
abbrev Key := Method × Uri

/-- Response metadata: status code, protocol version, headers
(the `http::response::Parts` of the source). -/
structure Parts where
  status : Nat
  version : String
  headers : List (String × String)
deriving DecidableEq

/-- A response: metadata plus a body byte sequence (modelled as a string). -/
structure Response where
  parts : Parts
  body : String
deriving DecidableEq

/-- `StatusCode::is_success` of the `http` crate: status in `[200, 299]`. -/
def is_success (status : Nat) : Bool :=
  200 ≤ status && status ≤ 299

/-- The struct preserving all the headers and body of the cached response
(src/lib.rs lines 198-202). -/
structure CachedResponse where
  parts : Parts
  body : String
deriving DecidableEq

/-- `impl IntoResponse for CachedResponse` (src/lib.rs lines 204-208):
`Response::from_parts(self.parts, Body::from(self.body))`. -/
def CachedResponse.into_response (c : CachedResponse) : Response :=
  { parts := c.parts, body := c.body }

/-- The store state: an association list from keys to cached responses,
each entry carrying its logically-expired flag. Modelled from the spec's
store contract (the concrete store is an external dependency). -/
abbrev Store := List (Key × CachedResponse × Bool)

/-- Modelled from the spec store contract: `expiring_get` returns the entry
if present together with its expired flag; `(none, false)` when absent. -/
def Store.cache_get_expired : Store → Key → Option CachedResponse × Bool
  | [], _ => (none, false)
  | (k, v, exp) :: rest, key =>
      if k = key then (some v, exp) else Store.cache_get_expired rest key

/-- Modelled from the spec store contract: `remove` evicts a key
unconditionally. -/
def Store.cache_remove : Store → Key → Store
  | [], _ => []
  | (k, v, exp) :: rest, key =>
      if k = key then Store.cache_remove rest key
      else (k, v, exp) :: Store.cache_remove rest key

/-- Modelled from the spec store contract: `set` inserts or replaces the
entry for the key and resets its freshness window. -/
def Store.cache_set (s : Store) (key : Key) (value : CachedResponse) : Store :=
  (key, value, false) :: s.cache_remove key

/-- One observable step of `CacheService::call`, in the order the source
performs them. -/
inductive Event
  | inner_fut_constructed
  | cache_get (key : Key)
  | cache_set (key : Key) (value : CachedResponse)
  | cache_remove (key : Key)
  | inner_awaited
deriving DecidableEq

/-- The framework's never-fails error type (`std::convert::Infallible`):
a type with no values. -/
inductive Infallible : Type

/-- The outcome of one `CacheService::call`: the response returned to the
caller, the store state afterwards, and the trace of events in order. -/
structure CallResult where
  response : Response
  store : Store
  events : List Event
deriving DecidableEq

/-- `axum::body::to_bytes(body, limit)`: materializes the body if its size
does not exceed `limit`, otherwise fails. -/
def to_bytes (body : String) (limit : Nat) : Option String :=
  if body.length ≤ limit then some body else none

/-- The synthesized response for a body over the size limit
(src/lib.rs lines 352-356): status 500 with the message
`format!("File too big, over {limit} bytes")`. -/
def size_error_response (limit : Nat) : Response :=
  { parts := { status := 500, version := "HTTP/1.1", headers := [] },
    body := "File too big, over " ++ toString limit ++ " bytes" }

/-- `update_cache` (src/lib.rs lines 343-363): split the response into
parts and body, materialize the body under the limit; on overflow return
the synthesized error response without touching the store; on success
store the new `CachedResponse` under the key and return a response built
from the same parts and bytes. -/
def update_cache (store : Store) (key : Key) (response : Response)
    (limit : Nat) : Response × Store × List Event :=
  match to_bytes response.body limit with
  | none => (size_error_response limit, store, [])
  | some bytes =>
      let value : CachedResponse := { parts := response.parts, body := bytes }
      (value.into_response, store.cache_set key value,
        [Event.cache_set key value])

/-- A request: method, URI, headers, body. -/
structure Request where
  method : Method
  uri : Uri
  headers : List (String × String)
  body : String
deriving DecidableEq

/-- The cache key computed from a request (src/lib.rs line 299:
`let key = (request.method().clone(), request.uri().clone())`). -/
def requestKey (r : Request) : Key := (r.method, r.uri)

/-- `CacheService::call` (src/lib.rs lines 293-341) as a pure function.
`innerResponse` is the response the inner service's future would produce
when awaited; the event trace records source order: the inner future is
constructed first (line 300), then the store is consulted under the lock
(lines 303-312, reinserting a stale value immediately), then the branches
of the async block run (lines 314-339). Every branch returns `Ok`. -/
def CacheService.call (use_stale : Bool) (limit : Nat) (store : Store)
    (request : Request) (innerResponse : Response) :
    Except Infallible CallResult :=
  match store.cache_get_expired (requestKey request) with
  | (some value, false) =>
      Except.ok
        { response := value.into_response
          store := store
          events := [Event.inner_fut_constructed,
                     Event.cache_get (requestKey request)] }
  | (some stale_value, true) =>
      let key := requestKey request
      let store1 := store.cache_set key stale_value
      let response := innerResponse
      if is_success response.parts.status then
        let (resp, store2, evs) := update_cache store1 key response limit
        Except.ok
          { response := resp
            store := store2
            events := [Event.inner_fut_constructed, Event.cache_get key,
                       Event.cache_set key stale_value,
                       Event.inner_awaited] ++ evs }
      else if use_stale then
        Except.ok
          { response := stale_value.into_response
            store := store1
            events := [Event.inner_fut_constructed, Event.cache_get key,
                       Event.cache_set key stale_value,
                       Event.inner_awaited] }
      else
        Except.ok
          { response := response
            store := store1.cache_remove key
            events := [Event.inner_fut_constructed, Event.cache_get key,
                       Event.cache_set key stale_value, Event.inner_awaited,
                       Event.cache_remove key] }
  | (none, _) =>
      let key := requestKey request
      let response := innerResponse
      if is_success response.parts.status then
        let (resp, store2, evs) := update_cache store key response limit
        Except.ok
          { response := resp
            store := store2
            events := [Event.inner_fut_constructed, Event.cache_get key,
                       Event.inner_awaited] ++ evs }
      else
        Except.ok
          { response := response
            store := store
            events := [Event.inner_fut_constructed, Event.cache_get key,
                       Event.inner_awaited] }

/-- `CacheService::call` with the (vacuous) `Infallible` error eliminated. -/
def CacheService.callOk (use_stale : Bool) (limit : Nat) (store : Store)
    (request : Request) (innerResponse : Response) : CallResult :=
  match CacheService.call use_stale limit store request innerResponse with
  | Except.ok r => r
  | Except.error e => nomatch e

/-- Whether the inner service's future was awaited during a call: in the
asynchronous source, the wrapped handler performs its work only when the
future is polled, so this is the notion of the handler being invoked. -/
def CallResult.awaited (r : CallResult) : Bool :=
  decide (Event.inner_awaited ∈ r.events)

/-- Process a sequence of requests through the layer against a stateful
handler, threading the store and counting how many times the inner future
was awaited. The handler is a function of the number of its prior
invocations to the response it produces. Returns the final store, the
final invocation count, and the list of responses in order. -/
def processRequests (use_stale : Bool) (limit : Nat)
    (handler : Nat → Response) :
    Store → Nat → List Request → Store × Nat × List Response
  | store, count, [] => (store, count, [])
  | store, count, req :: rest =>
      let r := CacheService.callOk use_stale limit store req (handler count)
      let count1 := if Event.inner_awaited ∈ r.events then count + 1 else count
      let (storeF, countF, resps) :=
        processRequests use_stale limit handler r.store count1 rest
      (storeF, countF, r.response :: resps)

/-- Store well-formedness: every entry in the store has a success status.
Preserved by the layer, since entries are created only from successful
responses and stale reinsertion reinserts an existing entry. -/
def StoreWF (s : Store) : Prop :=
  ∀ e ∈ s, is_success e.2.1.parts.status = true

/-! ### Store lemmas -/

theorem cache_get_expired_mem {s : Store} {k : Key} {v : CachedResponse}
    {b : Bool} (h : s.cache_get_expired k = (some v, b)) : (k, v, b) ∈ s := by
  induction s with
  | nil => simp [Store.cache_get_expired] at h
  | cons e rest ih =>
      obtain ⟨k', v', b'⟩ := e
      by_cases hk : k' = k
      · subst hk
        simp [Store.cache_get_expired] at h
        simp [h.1, h.2]
      · simp [Store.cache_get_expired, hk] at h
        exact List.mem_cons_of_mem _ (ih h)

theorem cache_get_expired_remove_self (s : Store) (k : Key) :
    (s.cache_remove k).cache_get_expired k = (none, false) := by
  induction s with
  | nil => rfl
  | cons e rest ih =>
      obtain ⟨k', v', b'⟩ := e
      by_cases hk : k' = k
      · simpa [Store.cache_remove, hk] using ih
      · simpa [Store.cache_remove, Store.cache_get_expired, hk] using ih

theorem cache_get_expired_set_self (s : Store) (k : Key) (v : CachedResponse) :
    (s.cache_set k v).cache_get_expired k = (some v, false) := by
  simp [Store.cache_set, Store.cache_get_expired]

theorem mem_cache_remove {s : Store} {k : Key} {e : Key × CachedResponse × Bool}
    (h : e ∈ s.cache_remove k) : e ∈ s := by
  induction s with
  | nil => simp [Store.cache_remove] at h
  | cons hd rest ih =>
      obtain ⟨k', v', b'⟩ := hd
      by_cases hk : k' = k
      · simp only [Store.cache_remove, hk, if_pos rfl] at h
        exact List.mem_cons_of_mem _ (ih h)
      · simp only [Store.cache_remove, if_neg hk] at h
        rcases List.mem_cons.1 h with h1 | h2
        · exact h1 ▸ List.mem_cons_self _ _
        · exact List.mem_cons_of_mem _ (ih h2)

theorem StoreWF.set {s : Store} {k : Key} {v : CachedResponse}
    (hwf : StoreWF s) (hv : is_success v.parts.status = true) :
    StoreWF (s.cache_set k v) := by
  intro e he
  rcases List.mem_cons.1 he with h1 | h2
  · subst h1; exact hv
  · exact hwf e (mem_cache_remove h2)

theorem StoreWF.remove {s : Store} {k : Key} (hwf : StoreWF s) :
    StoreWF (s.cache_remove k) :=
  fun e he => hwf e (mem_cache_remove he)

/-! ### Branch characterizations of `CacheService.call` -/

theorem callOk_fresh {store : Store} {req : Request} {v : CachedResponse}
    (u : Bool) (l : Nat) (inner : Response)
    (h : store.cache_get_expired (requestKey req) = (some v, false)) :
    CacheService.callOk u l store req inner =
      { response := v.into_response, store := store,
        events := [Event.inner_fut_constructed,
                   Event.cache_get (requestKey req)] } := by
  unfold CacheService.callOk CacheService.call
  rw [h]

theorem callOk_stale_success {store : Store} {req : Request}
    {v : CachedResponse} {inner : Response} (u : Bool) (l : Nat)
    (h : store.cache_get_expired (requestKey req) = (some v, true))
    (hs : is_success inner.parts.status = true)
    (hfit : inner.body.length ≤ l) :
    CacheService.callOk u l store req inner =
      { response := ({ parts := inner.parts, body := inner.body } :
            CachedResponse).into_response
        store := (store.cache_set (requestKey req) v).cache_set
          (requestKey req) { parts := inner.parts, body := inner.body }
        events := [Event.inner_fut_constructed,
                   Event.cache_get (requestKey req),
                   Event.cache_set (requestKey req) v,
                   Event.inner_awaited,
                   Event.cache_set (requestKey req)
                     { parts := inner.parts, body := inner.body }] } := by
  unfold CacheService.callOk CacheService.call
  rw [h]
  simp [hs, update_cache, to_bytes, hfit]

theorem callOk_stale_success_overflow {store : Store} {req : Request}
    {v : CachedResponse} {inner : Response} (u : Bool) (l : Nat)
    (h : store.cache_get_expired (requestKey req) = (some v, true))
    (hs : is_success inner.parts.status = true)
    (hbig : l < inner.body.length) :
    CacheService.callOk u l store req inner =
      { response := size_error_response l
        store := store.cache_set (requestKey req) v
        events := [Event.inner_fut_constructed,
                   Event.cache_get (requestKey req),
                   Event.cache_set (requestKey req) v,
                   Event.inner_awaited] } := by
  unfold CacheService.callOk CacheService.call
  rw [h]
  simp [hs, update_cache, to_bytes, Nat.not_le.mpr hbig]

theorem callOk_stale_fail_use_stale {store : Store} {req : Request}
    {v : CachedResponse} {inner : Response} (l : Nat)
    (h : store.cache_get_expired (requestKey req) = (some v, true))
    (hf : is_success inner.parts.status = false) :
    CacheService.callOk true l store req inner =
      { response := v.into_response
        store := store.cache_set (requestKey req) v
        events := [Event.inner_fut_constructed,
                   Event.cache_get (requestKey req),
                   Event.cache_set (requestKey req) v,
                   Event.inner_awaited] } := by
  unfold CacheService.callOk CacheService.call
  rw [h]
  simp [hf]

theorem callOk_stale_fail_no_stale {store : Store} {req : Request}
    {v : CachedResponse} {inner : Response} (l : Nat)
    (h : store.cache_get_expired (requestKey req) = (some v, true))
    (hf : is_success inner.parts.status = false) :
    CacheService.callOk false l store req inner =
      { response := inner
        store := (store.cache_set (requestKey req) v).cache_remove
          (requestKey req)
        events := [Event.inner_fut_constructed,
                   Event.cache_get (requestKey req),
                   Event.cache_set (requestKey req) v,
                   Event.inner_awaited,
                   Event.cache_remove (requestKey req)] } := by
  unfold CacheService.callOk CacheService.call
  rw [h]
  simp [hf]

theorem callOk_miss_success {store : Store} {req : Request} {b : Bool}
    {inner : Response} (u : Bool) (l : Nat)
    (h : store.cache_get_expired (requestKey req) = (none, b))
    (hs : is_success inner.parts.status = true)
    (hfit : inner.body.length ≤ l) :
    CacheService.callOk u l store req inner =
      { response := ({ parts := inner.parts, body := inner.body } :
            CachedResponse).into_response
        store := store.cache_set (requestKey req)
          { parts := inner.parts, body := inner.body }
        events := [Event.inner_fut_constructed,
                   Event.cache_get (requestKey req),
                   Event.inner_awaited,
                   Event.cache_set (requestKey req)
                     { parts := inner.parts, body := inner.body }] } := by
  unfold CacheService.callOk CacheService.call
  rw [h]
  simp [hs, update_cache, to_bytes, hfit]

theorem callOk_miss_success_overflow {store : Store} {req : Request}
    {b : Bool} {inner : Response} (u : Bool) (l : Nat)
    (h : store.cache_get_expired (requestKey req) = (none, b))
    (hs : is_success inner.parts.status = true)
    (hbig : l < inner.body.length) :
    CacheService.callOk u l store req inner =
      { response := size_error_response l
        store := store
        events := [Event.inner_fut_constructed,
                   Event.cache_get (requestKey req),
                   Event.inner_awaited] } := by
  unfold CacheService.callOk CacheService.call
  rw [h]
  simp [hs, update_cache, to_bytes, Nat.not_le.mpr hbig]

theorem callOk_miss_fail {store : Store} {req : Request} {b : Bool}
    {inner : Response} (u : Bool) (l : Nat)
    (h : store.cache_get_expired (requestKey req) = (none, b))
    (hf : is_success inner.parts.status = false) :
    CacheService.callOk u l store req inner =
      { response := inner
        store := store
        events := [Event.inner_fut_constructed,
                   Event.cache_get (requestKey req),
                   Event.inner_awaited] } := by
  unfold CacheService.callOk CacheService.call
  rw [h]
  simp [hf]

/-! ### Sequence lemmas -/

theorem range_map_shift (handler : Nat → Response) (n count : Nat) :
    List.map (fun i => handler (count + i)) (List.range (n + 1)) =
      handler count :: List.map (fun i => handler (count + 1 + i)) (List.range n) := by
  rw [List.range_succ_eq_map, List.map_cons, List.map_map]
  refine congrArg₂ _ (by simp) (List.map_congr_left ?_)
  intro i _
  simp only [Function.comp]
  exact congrArg handler (by omega)

/-- While a fresh entry for the request's key sits in the store, any number
of identical requests are all answered from the cache, the store does not
change, and the inner future is never awaited. -/
theorem processRequests_fresh {store : Store} {req : Request}
    {v : CachedResponse} (u : Bool) (l : Nat) (handler : Nat → Response)
    (h : store.cache_get_expired (requestKey req) = (some v, false)) :
    ∀ n count, processRequests u l handler store count (List.replicate n req) =
      (store, count, List.replicate n v.into_response) := by
  intro n
  induction n with
  | zero => intro count; rfl
  | succ m ih =>
      intro count
      simp only [List.replicate_succ, processRequests]
      rw [callOk_fresh u l (handler count) h]
      simp [ih]

/-- When the store has no entry for the key and the handler always fails,
every request is a miss that awaits the handler, the store never changes,
and each response is the handler's current response. -/
theorem processRequests_fail {store : Store} {k : Key} {b : Bool}
    (u : Bool) (l : Nat) (handler : Nat → Response)
    (habs : store.cache_get_expired k = (none, b))
    (hf : ∀ m, is_success (handler m).parts.status = false) :
    ∀ reqs : List Request, (∀ r ∈ reqs, requestKey r = k) →
    ∀ count, processRequests u l handler store count reqs =
      (store, count + reqs.length,
        (List.range reqs.length).map fun i => handler (count + i)) := by
  intro reqs
  induction reqs with
  | nil => intro _ count; simp [processRequests]
  | cons req rest ih =>
      intro hks count
      have hk : requestKey req = k := hks req (List.mem_cons_self _ _)
      simp only [processRequests]
      rw [callOk_miss_fail u l (hk.symm ▸ habs) (hf count)]
      rw [if_pos (by simp)]
      rw [ih (fun r hr => hks r (List.mem_cons_of_mem _ hr)) (count + 1)]
      simp only [List.length_cons, range_map_shift]
      refine congrArg₂ _ rfl (congrArg₂ _ (by omega) ?_)
      simp

/-- The layer preserves store well-formedness: every path stores only
entries materialized from successful responses or reinserts an entry that
was already in the store. This justifies assuming `StoreWF` for any store
the layer has been driving. -/
theorem callOk_preserves_wf {store : Store} (u : Bool) (l : Nat)
    (req : Request) (inner : Response) (hwf : StoreWF store) :
    StoreWF (CacheService.callOk u l store req inner).store := by
  rcases hget : store.cache_get_expired (requestKey req) with ⟨_ | v, b⟩
  · cases hs : is_success inner.parts.status with
    | true =>
        by_cases hfit : inner.body.length ≤ l
        · rw [callOk_miss_success u l hget hs hfit]
          exact hwf.set hs
        · rw [callOk_miss_success_overflow u l hget hs (Nat.not_le.mp hfit)]
          exact hwf
    | false =>
        rw [callOk_miss_fail u l hget hs]
        exact hwf
  · cases b with
    | false =>
        rw [callOk_fresh u l inner hget]
        exact hwf
    | true =>
        have hv : is_success v.parts.status = true :=
          hwf _ (cache_get_expired_mem hget)
        cases hs : is_success inner.parts.status with
        | true =>
            by_cases hfit : inner.body.length ≤ l
            · rw [callOk_stale_success u l hget hs hfit]
              exact (hwf.set hv).set hs
            · rw [callOk_stale_success_overflow u l hget hs
                (Nat.not_le.mp hfit)]
              exact hwf.set hv
        | false =>
            cases u with
            | true =>
                rw [callOk_stale_fail_use_stale l hget hs]
                exact hwf.set hv
            | false =>
                rw [callOk_stale_fail_no_stale l hget hs]
                exact (hwf.set hv).remove

/-! ### Concrete data for witnesses -/

/-- A concrete GET request. -/
def reqA : Request :=
  { method := "GET", uri := "/hello/foo", headers := [], body := "" }

/-- A concrete GET request identical to `reqA` in method and URI but with
different headers and body. -/
def reqB : Request :=
  { method := "GET", uri := "/hello/foo",
    headers := [("accept", "text/plain")], body := "payload" }

/-- A concrete successful response. -/
def respOK : Response :=
  { parts := { status := 200, version := "HTTP/1.1",
               headers := [("content-type", "text/plain")] },
    body := "Hello, foo" }

/-- The cache entry materialized from `respOK`. -/
def entryOK : CachedResponse := { parts := respOK.parts, body := respOK.body }

/-- A concrete failed response. -/
def respErr : Response :=
  { parts := { status := 500, version := "HTTP/1.1", headers := [] },
    body := "Error!" }

/-- A concrete successful response whose body is 54 bytes long. -/
def respBig : Response :=
  { parts := { status := 200, version := "HTTP/1.1", headers := [] },
    body := "a response that is well beyond the limit of the cache!" }

/-- A store holding a fresh entry for `reqA`'s key. -/
def storeFresh : Store := [(("GET", "/hello/foo"), entryOK, false)]

/-- A store holding a stale entry for `reqA`'s key. -/
def storeStale : Store := [(("GET", "/hello/foo"), entryOK, true)]

/-- A handler that always fails. -/
def handlerFail : Nat → Response := fun _ => respErr

/-! ### Claims -/

/-- C1: on a fresh hit the layer returns a response built from the cached
entry and never awaits the inner future; consequently, for N ≥ 2 identical
requests issued while a fresh entry (of a well-formed store) exists, the
inner handler runs at most once (here: zero times) and every response is
success-status with the cached entry's body. -/
theorem c1_fresh_hit_avoids_recomputation
    (use_stale : Bool) (limit : Nat) (handler : Nat → Response)
    (store : Store) (req : Request) (v : CachedResponse) (n : Nat)
    (hwf : StoreWF store)
    (hfresh : store.cache_get_expired (requestKey req) = (some v, false))
    (_hn : 2 ≤ n) :
    (∀ inner : Response,
        (CacheService.callOk use_stale limit store req inner).response
            = v.into_response ∧
        (CacheService.callOk use_stale limit store req inner).awaited
            = false) ∧
    (processRequests use_stale limit handler store 0
        (List.replicate n req)).2.1 ≤ 1 ∧
    (∀ resp ∈ (processRequests use_stale limit handler store 0
        (List.replicate n req)).2.2,
      is_success resp.parts.status = true ∧ resp.body = v.body) := by
  have hsucc : is_success v.parts.status = true :=
    hwf _ (cache_get_expired_mem hfresh)
  refine ⟨?_, ?_, ?_⟩
  · intro inner
    rw [callOk_fresh use_stale limit inner hfresh]
    exact ⟨rfl, by simp [CallResult.awaited]⟩
  · rw [processRequests_fresh use_stale limit handler hfresh n 0]
    exact Nat.zero_le 1
  · rw [processRequests_fresh use_stale limit handler hfresh n 0]
    intro resp hresp
    have hr := List.eq_of_mem_replicate hresp
    subst hr
    exact ⟨hsucc, rfl⟩

theorem c1_fresh_hit_avoids_recomputation_witness :
    StoreWF storeFresh ∧
    storeFresh.cache_get_expired (requestKey reqA) = (some entryOK, false) ∧
    2 ≤ 3 ∧
    ((∀ inner : Response,
        (CacheService.callOk true 100 storeFresh reqA inner).response
            = entryOK.into_response ∧
        (CacheService.callOk true 100 storeFresh reqA inner).awaited
            = false) ∧
     (processRequests true 100 handlerFail storeFresh 0
         (List.replicate 3 reqA)).2.1 ≤ 1 ∧
     (∀ resp ∈ (processRequests true 100 handlerFail storeFresh 0
         (List.replicate 3 reqA)).2.2,
       is_success resp.parts.status = true ∧ resp.body = entryOK.body)) :=
  ⟨by unfold StoreWF storeFresh; decide, by decide, by decide,
   c1_fresh_hit_avoids_recomputation true 100 handlerFail storeFresh reqA
     entryOK 3 (by unfold StoreWF storeFresh; decide) (by decide) (by decide)⟩

/-- C2: success is exactly status in [200, 299]; and starting from a store
with no entry for the key, a sequence of same-key requests whose handler
always returns a non-success status leaves the store unchanged (hence
never containing an entry for that key) after every prefix, with the
handler invoked once per request. -/
theorem c2_failures_never_cached
    (use_stale : Bool) (limit : Nat) (handler : Nat → Response)
    (store : Store) (k : Key) (b : Bool) (reqs : List Request)
    (habs : store.cache_get_expired k = (none, b))
    (hf : ∀ m, is_success (handler m).parts.status = false)
    (hreqs : ∀ r ∈ reqs, requestKey r = k) :
    (∀ s : Nat, is_success s = true ↔ (200 ≤ s ∧ s ≤ 299)) ∧
    ∀ i : Nat,
      (processRequests use_stale limit handler store 0
          (reqs.take i)).1.cache_get_expired k = (none, b) ∧
      (processRequests use_stale limit handler store 0 (reqs.take i)).1
          = store ∧
      (processRequests use_stale limit handler store 0 (reqs.take i)).2.1
          = (reqs.take i).length := by
  constructor
  · intro s
    simp [is_success]
  · intro i
    have htake : ∀ r ∈ reqs.take i, requestKey r = k :=
      fun r hr => hreqs r (List.mem_of_mem_take hr)
    rw [processRequests_fail use_stale limit handler habs hf
      (reqs.take i) htake 0]
    exact ⟨habs, rfl, by simp⟩

theorem c2_failures_never_cached_witness :
    Store.cache_get_expired [] ("GET", "/hello/foo") = (none, false) ∧
    (∀ m, is_success (handlerFail m).parts.status = false) ∧
    (∀ r ∈ [reqA, reqB], requestKey r = ("GET", "/hello/foo")) ∧
    ((∀ s : Nat, is_success s = true ↔ (200 ≤ s ∧ s ≤ 299)) ∧
     ∀ i : Nat,
       (processRequests true 100 handlerFail [] 0
           ([reqA, reqB].take i)).1.cache_get_expired ("GET", "/hello/foo")
           = (none, false) ∧
       (processRequests true 100 handlerFail [] 0 ([reqA, reqB].take i)).1
           = [] ∧
       (processRequests true 100 handlerFail [] 0 ([reqA, reqB].take i)).2.1
           = ([reqA, reqB].take i).length) :=
  ⟨by decide, fun _ => rfl, by decide,
   c2_failures_never_cached true 100 handlerFail [] ("GET", "/hello/foo")
     false [reqA, reqB] (by decide) (fun _ => rfl) (by decide)⟩

/-- C3: on a stale hit where the inner handler fails, with
`use_stale_on_failure` enabled the layer returns a response built from the
stale value and performs no store operation after awaiting the handler
(the store stays as it stood after the stale reinsertion); with it
disabled the layer removes the key and returns the handler's failed
response unmodified, so the key is absent afterwards and subsequent
same-key requests against a failing handler each await the handler. -/
theorem c3_stale_hit_failure_branches
    (limit : Nat) (store : Store) (req : Request) (v : CachedResponse)
    (inner : Response)
    (hstale : store.cache_get_expired (requestKey req) = (some v, true))
    (hfail : is_success inner.parts.status = false) :
    (CacheService.callOk true limit store req inner =
      { response := v.into_response
        store := store.cache_set (requestKey req) v
        events := [Event.inner_fut_constructed,
                   Event.cache_get (requestKey req),
                   Event.cache_set (requestKey req) v,
                   Event.inner_awaited] }) ∧
    (CacheService.callOk false limit store req inner =
      { response := inner
        store := (store.cache_set (requestKey req) v).cache_remove
          (requestKey req)
        events := [Event.inner_fut_constructed,
                   Event.cache_get (requestKey req),
                   Event.cache_set (requestKey req) v,
                   Event.inner_awaited,
                   Event.cache_remove (requestKey req)] }) ∧
    ((CacheService.callOk false limit store req inner).store.cache_get_expired
        (requestKey req) = (none, false)) ∧
    (∀ handler : Nat → Response,
      (∀ m, is_success (handler m).parts.status = false) →
      ∀ reqs : List Request, (∀ r ∈ reqs, requestKey r = requestKey req) →
      ∀ count,
        (processRequests false limit handler
            (CacheService.callOk false limit store req inner).store count
            reqs).2.1 = count + reqs.length) := by
  refine ⟨callOk_stale_fail_use_stale limit hstale hfail,
          callOk_stale_fail_no_stale limit hstale hfail, ?_, ?_⟩
  · rw [callOk_stale_fail_no_stale limit hstale hfail]
    exact cache_get_expired_remove_self _ _
  · intro handler hf reqs hreqs count
    have habs : (CacheService.callOk false limit store req inner).store.cache_get_expired
        (requestKey req) = (none, false) := by
      rw [callOk_stale_fail_no_stale limit hstale hfail]
      exact cache_get_expired_remove_self _ _
    rw [processRequests_fail false limit handler habs hf reqs hreqs count]

theorem c3_stale_hit_failure_branches_witness :
    storeStale.cache_get_expired (requestKey reqA) = (some entryOK, true) ∧
    is_success respErr.parts.status = false ∧
    ((CacheService.callOk true 100 storeStale reqA respErr).response
        = entryOK.into_response ∧
     (CacheService.callOk false 100 storeStale reqA respErr).response
        = respErr ∧
     (CacheService.callOk false 100 storeStale reqA respErr).store.cache_get_expired
        (requestKey reqA) = (none, false) ∧
     (processRequests false 100 handlerFail
         (CacheService.callOk false 100 storeStale reqA respErr).store 0
         [reqA, reqA]).2.1 = 0 + 2) := by
  have h := c3_stale_hit_failure_branches 100 storeStale reqA entryOK respErr
    (by decide) (by decide)
  refine ⟨by decide, by decide, ?_, ?_, h.2.2.1, ?_⟩
  · rw [h.1]
  · rw [h.2.1]
  · exact h.2.2.2 handlerFail (fun _ => rfl) [reqA, reqA]
      (by decide) 0

/-- Helper: when the key is absent, every miss branch awaits the inner
future. -/
theorem callOk_awaited_of_absent {store : Store} {req : Request} {b : Bool}
    {inner : Response} (u : Bool) (l : Nat)
    (h : store.cache_get_expired (requestKey req) = (none, b)) :
    (CacheService.callOk u l store req inner).awaited = true := by
  cases hs : is_success inner.parts.status with
  | false =>
      rw [callOk_miss_fail u l h hs]
      simp [CallResult.awaited]
  | true =>
      by_cases hfit : inner.body.length <= l
      · rw [callOk_miss_success u l h hs hfit]
        simp [CallResult.awaited]
      · rw [callOk_miss_success_overflow u l h hs (Nat.not_le.mp hfit)]
        simp [CallResult.awaited]

/-- C4: when materialization of a successful response fails because the
body is over the limit, `update_cache` returns the synthesized 500
response whose message names the limit, and does not touch the store; so
on a miss the layer returns that error, the store is unchanged, and a
same-key retry awaits the inner future again. -/
theorem c4_body_overflow_error_store_untouched
    (use_stale : Bool) (limit : Nat) (store : Store) (k : Key) (b : Bool)
    (inner inner2 : Response) (req : Request)
    (hbig : limit < inner.body.length)
    (hsucc : is_success inner.parts.status = true) :
    (update_cache store k inner limit
        = (size_error_response limit, store, [])) ∧
    ((size_error_response limit).parts.status = 500) ∧
    (∃ pre post,
        (size_error_response limit).body = pre ++ toString limit ++ post) ∧
    (store.cache_get_expired (requestKey req) = (none, b) →
      (CacheService.callOk use_stale limit store req inner).response
          = size_error_response limit ∧
      (CacheService.callOk use_stale limit store req inner).store = store ∧
      (CacheService.callOk use_stale limit
          (CacheService.callOk use_stale limit store req inner).store req
          inner2).awaited = true) := by
  refine ⟨?_, rfl, ⟨"File too big, over ", " bytes", rfl⟩, ?_⟩
  · simp [update_cache, to_bytes, Nat.not_le.mpr hbig]
  · intro hmiss
    rw [callOk_miss_success_overflow use_stale limit hmiss hsucc hbig]
    exact ⟨rfl, rfl, callOk_awaited_of_absent use_stale limit hmiss⟩

theorem c4_body_overflow_error_store_untouched_witness :
    16 < respBig.body.length ∧
    is_success respBig.parts.status = true ∧
    Store.cache_get_expired [] (requestKey reqA) = (none, false) ∧
    ((CacheService.callOk true 16 [] reqA respBig).response
        = size_error_response 16 ∧
     (CacheService.callOk true 16 [] reqA respBig).store = [] ∧
     (CacheService.callOk true 16
         (CacheService.callOk true 16 [] reqA respBig).store reqA
         respOK).awaited = true) :=
  ⟨by decide, by decide, by decide,
   (c4_body_overflow_error_store_untouched true 16 []
       (requestKey reqA) false respBig respOK reqA (by decide)
       (by decide)).2.2.2 (by decide)⟩

/-- C5: on a stale hit the engine re-inserts the stale value under the
same key before awaiting the inner future (events 2 and 3 of the trace in
every branch), and when the handler then succeeds and the body fits, the
new materialized entry is stored under the key and the new response is
returned. -/
theorem c5_stale_reinsert_before_await_then_refresh
    (use_stale : Bool) (limit : Nat) (store : Store) (req : Request)
    (v : CachedResponse) (inner : Response)
    (hstale : store.cache_get_expired (requestKey req) = (some v, true)) :
    ((CacheService.callOk use_stale limit store req inner).events[2]?
        = some (Event.cache_set (requestKey req) v) ∧
     (CacheService.callOk use_stale limit store req inner).events[3]?
        = some Event.inner_awaited) ∧
    (is_success inner.parts.status = true → inner.body.length ≤ limit →
      (CacheService.callOk use_stale limit store req inner).response
          = ({ parts := inner.parts, body := inner.body } :
              CachedResponse).into_response ∧
      (CacheService.callOk use_stale limit store req
          inner).store.cache_get_expired (requestKey req)
        = (some { parts := inner.parts, body := inner.body }, false)) := by
  constructor
  · cases hs : is_success inner.parts.status with
    | true =>
        by_cases hfit : inner.body.length ≤ limit
        · rw [callOk_stale_success use_stale limit hstale hs hfit]
          exact ⟨rfl, rfl⟩
        · rw [callOk_stale_success_overflow use_stale limit hstale hs
            (Nat.not_le.mp hfit)]
          exact ⟨rfl, rfl⟩
    | false =>
        cases use_stale with
        | true =>
            rw [callOk_stale_fail_use_stale limit hstale hs]
            exact ⟨rfl, rfl⟩
        | false =>
            rw [callOk_stale_fail_no_stale limit hstale hs]
            exact ⟨rfl, rfl⟩
  · intro hs hfit
    rw [callOk_stale_success use_stale limit hstale hs hfit]
    exact ⟨rfl, cache_get_expired_set_self _ _ _⟩

theorem c5_stale_reinsert_before_await_then_refresh_witness :
    storeStale.cache_get_expired (requestKey reqA) = (some entryOK, true) ∧
    is_success respOK.parts.status = true ∧
    respOK.body.length ≤ 100 ∧
    ((CacheService.callOk true 100 storeStale reqA respOK).events[2]?
        = some (Event.cache_set (requestKey reqA) entryOK) ∧
     (CacheService.callOk true 100 storeStale reqA respOK).events[3]?
        = some Event.inner_awaited ∧
     (CacheService.callOk true 100 storeStale reqA respOK).response
        = ({ parts := respOK.parts, body := respOK.body } :
            CachedResponse).into_response ∧
     (CacheService.callOk true 100 storeStale reqA
         respOK).store.cache_get_expired (requestKey reqA)
       = (some { parts := respOK.parts, body := respOK.body }, false)) := by
  have h := c5_stale_reinsert_before_await_then_refresh true 100 storeStale
    reqA entryOK respOK (by decide)
  exact ⟨by decide, by decide, by decide,
    h.1.1, h.1.2, (h.2 (by decide) (by decide)).1, (h.2 (by decide) (by decide)).2⟩

/-- C6: on a miss the inner future is awaited; if the handler succeeds and
the body fits, the materialized entry is stored under the key and the new
response is returned; if the handler fails, its response is returned
unmodified and the store is left completely unchanged. -/
theorem c6_miss_branches
    (use_stale : Bool) (limit : Nat) (store : Store) (req : Request)
    (b : Bool) (inner : Response)
    (hmiss : store.cache_get_expired (requestKey req) = (none, b)) :
    (CacheService.callOk use_stale limit store req inner).awaited = true ∧
    (is_success inner.parts.status = true → inner.body.length ≤ limit →
      (CacheService.callOk use_stale limit store req inner).response
          = ({ parts := inner.parts, body := inner.body } :
              CachedResponse).into_response ∧
      (CacheService.callOk use_stale limit store req inner).store
          = store.cache_set (requestKey req)
              { parts := inner.parts, body := inner.body }) ∧
    (is_success inner.parts.status = false →
      (CacheService.callOk use_stale limit store req inner).response = inner ∧
      (CacheService.callOk use_stale limit store req inner).store = store) := by
  refine ⟨callOk_awaited_of_absent use_stale limit hmiss, ?_, ?_⟩
  · intro hs hfit
    rw [callOk_miss_success use_stale limit hmiss hs hfit]
    exact ⟨rfl, rfl⟩
  · intro hf
    rw [callOk_miss_fail use_stale limit hmiss hf]
    exact ⟨rfl, rfl⟩

theorem c6_miss_branches_witness :
    Store.cache_get_expired [] (requestKey reqA) = (none, false) ∧
    is_success respOK.parts.status = true ∧
    respOK.body.length ≤ 100 ∧
    is_success respErr.parts.status = false ∧
    ((CacheService.callOk true 100 [] reqA respOK).awaited = true ∧
     (CacheService.callOk true 100 [] reqA respOK).response
        = ({ parts := respOK.parts, body := respOK.body } :
            CachedResponse).into_response ∧
     (CacheService.callOk true 100 [] reqA respOK).store
        = Store.cache_set [] (requestKey reqA)
            { parts := respOK.parts, body := respOK.body } ∧
     (CacheService.callOk true 100 [] reqA respErr).response = respErr ∧
     (CacheService.callOk true 100 [] reqA respErr).store = []) := by
  have hOK := c6_miss_branches true 100 [] reqA false respOK (by decide)
  have hErr := c6_miss_branches true 100 [] reqA false respErr (by decide)
  exact ⟨by decide, by decide, by decide, by decide,
    hOK.1, (hOK.2.1 (by decide) (by decide)).1,
    (hOK.2.1 (by decide) (by decide)).2,
    (hErr.2.2 (by decide)).1, (hErr.2.2 (by decide)).2⟩

/-- C7: round-trip fidelity: when the body fits, `update_cache` returns a
response built from exactly the parts and bytes of the stored entry, the
entry sits fresh in the store, and a later cache hit rebuilds a response
from those same parts and bytes, byte-identical in status, headers, and
body to the response originally returned to the populating caller. -/
theorem c7_round_trip_fidelity
    (_use_stale use_stale2 : Bool) (limit limit2 : Nat) (store : Store)
    (k : Key) (req : Request) (response inner2 : Response)
    (hfit : response.body.length ≤ limit) (hk : requestKey req = k) :
    (update_cache store k response limit).1
        = ({ parts := response.parts, body := response.body } :
            CachedResponse).into_response ∧
    (update_cache store k response limit).2.1.cache_get_expired k
        = (some { parts := response.parts, body := response.body }, false) ∧
    (CacheService.callOk use_stale2 limit2
        (update_cache store k response limit).2.1 req inner2).response
        = (update_cache store k response limit).1 ∧
    (CacheService.callOk use_stale2 limit2
        (update_cache store k response limit).2.1 req inner2).response.parts.status
        = (update_cache store k response limit).1.parts.status ∧
    (CacheService.callOk use_stale2 limit2
        (update_cache store k response limit).2.1 req inner2).response.parts.headers
        = (update_cache store k response limit).1.parts.headers ∧
    (CacheService.callOk use_stale2 limit2
        (update_cache store k response limit).2.1 req inner2).response.body
        = (update_cache store k response limit).1.body := by
  have hmat : update_cache store k response limit
      = (({ parts := response.parts, body := response.body } :
            CachedResponse).into_response,
         store.cache_set k { parts := response.parts, body := response.body },
         [Event.cache_set k { parts := response.parts, body := response.body }]) := by
    simp [update_cache, to_bytes, hfit]
  rw [hmat]
  have hget : (store.cache_set k
      { parts := response.parts, body := response.body }).cache_get_expired
        (requestKey req)
      = (some { parts := response.parts, body := response.body }, false) := by
    rw [hk]
    exact cache_get_expired_set_self _ _ _
  rw [callOk_fresh use_stale2 limit2 inner2 hget]
  rw [hk] at hget ⊢
  exact ⟨rfl, cache_get_expired_set_self _ _ _, rfl, rfl, rfl, rfl⟩

theorem c7_round_trip_fidelity_witness :
    respOK.body.length ≤ 100 ∧
    requestKey reqA = ("GET", "/hello/foo") ∧
    ((update_cache [] ("GET", "/hello/foo") respOK 100).1
        = ({ parts := respOK.parts, body := respOK.body } :
            CachedResponse).into_response ∧
     (update_cache [] ("GET", "/hello/foo") respOK
         100).2.1.cache_get_expired ("GET", "/hello/foo")
        = (some { parts := respOK.parts, body := respOK.body }, false) ∧
     (CacheService.callOk true 100
         (update_cache [] ("GET", "/hello/foo") respOK 100).2.1 reqA
         respErr).response
        = (update_cache [] ("GET", "/hello/foo") respOK 100).1) := by
  have h := c7_round_trip_fidelity true true 100 100 []
    ("GET", "/hello/foo") reqA respOK respErr (by decide) (by decide)
  exact ⟨by decide, by decide, h.1, h.2.1, h.2.2.1⟩

/-- C8: the cache key is computed solely from the request's method and its
path-plus-query identity: two requests with identical method and URI get
the same key and the same result from `CacheService.call`, regardless of
their headers, body, or any other attribute. -/
theorem c8_key_only_from_method_and_uri (r1 r2 : Request)
    (hm : r1.method = r2.method) (hu : r1.uri = r2.uri) :
    requestKey r1 = requestKey r2 ∧
    ∀ (use_stale : Bool) (limit : Nat) (store : Store) (inner : Response),
      CacheService.call use_stale limit store r1 inner
        = CacheService.call use_stale limit store r2 inner := by
  have hk : requestKey r1 = requestKey r2 := by
    simp [requestKey, hm, hu]
  refine ⟨hk, ?_⟩
  intro use_stale limit store inner
  unfold CacheService.call
  rw [hk]

theorem c8_key_only_from_method_and_uri_witness :
    reqA.method = reqB.method ∧ reqA.uri = reqB.uri ∧
    (requestKey reqA = requestKey reqB ∧
     ∀ (use_stale : Bool) (limit : Nat) (store : Store) (inner : Response),
       CacheService.call use_stale limit store reqA inner
         = CacheService.call use_stale limit store reqB inner) :=
  ⟨by decide, by decide,
   c8_key_only_from_method_and_uri reqA reqB (by decide) (by decide)⟩

/-- C9: on every input and every code path, `CacheService.call` returns
`Ok` of a response value: its error type `Infallible` has no values, so
the layer never propagates a hard error and never drops a request. -/
theorem c9_call_never_errors (use_stale : Bool) (limit : Nat)
    (store : Store) (req : Request) (inner : Response) :
    CacheService.call use_stale limit store req inner
      = Except.ok (CacheService.callOk use_stale limit store req inner) := by
  unfold CacheService.callOk
  cases h : CacheService.call use_stale limit store req inner with
  | ok r => rfl
  | error e => cases e

/-- Helper: in every branch the first two trace events are the inner
future construction and the store lookup. -/
theorem callOk_events_start (use_stale : Bool) (limit : Nat) (store : Store)
    (req : Request) (inner : Response) :
    (CacheService.callOk use_stale limit store req inner).events[0]?
        = some Event.inner_fut_constructed ∧
    (CacheService.callOk use_stale limit store req inner).events[1]?
        = some (Event.cache_get (requestKey req)) := by
  rcases hget : store.cache_get_expired (requestKey req) with ⟨_ | v, b⟩
  · cases hs : is_success inner.parts.status with
    | true =>
        by_cases hfit : inner.body.length ≤ limit
        · rw [callOk_miss_success use_stale limit hget hs hfit]
          exact ⟨rfl, rfl⟩
        · rw [callOk_miss_success_overflow use_stale limit hget hs
            (Nat.not_le.mp hfit)]
          exact ⟨rfl, rfl⟩
    | false =>
        rw [callOk_miss_fail use_stale limit hget hs]
        exact ⟨rfl, rfl⟩
  · cases b with
    | false =>
        rw [callOk_fresh use_stale limit inner hget]
        exact ⟨rfl, rfl⟩
    | true =>
        cases hs : is_success inner.parts.status with
        | true =>
            by_cases hfit : inner.body.length ≤ limit
            · rw [callOk_stale_success use_stale limit hget hs hfit]
              exact ⟨rfl, rfl⟩
            · rw [callOk_stale_success_overflow use_stale limit hget hs
                (Nat.not_le.mp hfit)]
              exact ⟨rfl, rfl⟩
        | false =>
            cases use_stale with
            | true =>
                rw [callOk_stale_fail_use_stale limit hget hs]
                exact ⟨rfl, rfl⟩
            | false =>
                rw [callOk_stale_fail_no_stale limit hget hs]
                exact ⟨rfl, rfl⟩

/-- C10: on every request `CacheService.call` constructs the inner
service's response future before the cache is consulted (trace positions
0 and 1), and on a fresh hit that future is never awaited: the wrapped
handler's work is skipped only insofar as the inner service defers its
work to the future's polling. -/
theorem c10_inner_future_constructed_before_cache
    (use_stale : Bool) (limit : Nat) (store : Store) (req : Request)
    (inner : Response) :
    (CacheService.callOk use_stale limit store req inner).events[0]?
        = some Event.inner_fut_constructed ∧
    (CacheService.callOk use_stale limit store req inner).events[1]?
        = some (Event.cache_get (requestKey req)) ∧
    ∀ v : CachedResponse,
      store.cache_get_expired (requestKey req) = (some v, false) →
      (CacheService.callOk use_stale limit store req inner).awaited
          = false := by
  refine ⟨(callOk_events_start use_stale limit store req inner).1,
          (callOk_events_start use_stale limit store req inner).2, ?_⟩
  intro v hfresh
  rw [callOk_fresh use_stale limit inner hfresh]
  simp [CallResult.awaited]

theorem c10_inner_future_constructed_before_cache_witness :
    storeFresh.cache_get_expired (requestKey reqA) = (some entryOK, false) ∧
    ((CacheService.callOk true 100 storeFresh reqA respErr).events[0]?
        = some Event.inner_fut_constructed ∧
     (CacheService.callOk true 100 storeFresh reqA respErr).events[1]?
        = some (Event.cache_get (requestKey reqA)) ∧
     (CacheService.callOk true 100 storeFresh reqA respErr).awaited
        = false) := by
  have h := c10_inner_future_constructed_before_cache true 100 storeFresh
    reqA respErr
  exact ⟨by decide, h.1, h.2.1, h.2.2 entryOK (by decide)⟩

end AxumResponseCache
